import Mathlib

/-!
Verification of the web-content retrieval subsystem of the repository
(`mediawords/util/web/useragent.py`): the per-domain scheduling of
`parallel_get`, its worker-block partitioning, the retry policy installed by
`set_timing`, the fault classification of `request()`, the size-capped body
accumulation loop, the blacklist URL substitution, and the
redirects-exhausted paywall heuristic of `get_follow_http_html_redirects`.

Python integers are embedded as `Int` (with `%` read as Python's
floor modulo, which coincides with Lean's `Int.emod` for positive divisors),
sizes and counts as `Nat`, Python strings as `String`, `None`-able values as
`Option`, raised exceptions as `Except`, and insertion-ordered dicts as
association lists.
-/

namespace UserAgentSpec

open List

/-! ## Per-domain scheduling (`parallel_get.__get_scheduled_urls`) -/

/-- Embedding of the inner loop of `__get_scheduled_urls` for one domain
bucket (useragent.py lines 431-438): `time_` starts at 0; each URL is
appended with the current `time_`; afterwards, if `time_ % 5 == 0`, `time_`
is advanced by `per_domain_timeout_`. -/
def scheduleBucket (perDomainTimeout : Int) : List String → Int → List (String × Int)
  | [], _ => []
  | u :: rest, time_ =>
    (u, time_) ::
      scheduleBucket perDomainTimeout rest
        (if time_ % 5 = 0 then time_ + perDomainTimeout else time_)

/-- Wrapper fixing the initial running offset to 0, as in the source. -/
def scheduleBucketFromZero (perDomainTimeout : Int) (urls : List String) : List (String × Int) :=
  scheduleBucket perDomainTimeout urls 0

/-- Rendering of the claim's words (index-based advancing), for comparison
with `scheduleBucket`: the first URL gets offset 0; after the URL at index
`i`, the running offset advances by the per-domain timeout exactly when
`i % 5 == 0` (the initial index 0 included); all other URLs inherit the
current running offset. -/
def claimBucket (perDomainTimeout : Int) : List String → Nat → Int → List (String × Int)
  | [], _, _ => []
  | u :: rest, i, off =>
    (u, off) ::
      claimBucket perDomainTimeout rest (i + 1)
        (if i % 5 = 0 then off + perDomainTimeout else off)

/-- Wrapper fixing index 0 and initial offset 0. -/
def claimBucketFromZero (perDomainTimeout : Int) (urls : List String) : List (String × Int) :=
  claimBucket perDomainTimeout urls 0 0

/-! ## Retry policy (`set_timing`, `__DETERMINED_HTTP_CODES`) -/

/-- Embedding of `UserAgent.__DETERMINED_HTTP_CODES` (useragent.py lines
110-117): the set literal of `HTTPStatus` values `REQUEST_TIMEOUT`,
`INTERNAL_SERVER_ERROR`, `BAD_GATEWAY`, `SERVICE_UNAVAILABLE`,
`GATEWAY_TIMEOUT`, `TOO_MANY_REQUESTS`, numerically. The Python value is a
set; it is embedded as a list read up to membership. -/
def DETERMINED_HTTP_CODES : List Nat := [408, 500, 502, 503, 504, 429]

/-- Retry configuration carried by the `urllib3.Retry` object constructed in
`set_timing` (useragent.py lines 775-779). -/
structure RetryPolicy where
  total : Nat
  backoff_factor : Int
  status_forcelist : List Nat
  deriving Repr, DecidableEq

/-- Argument passed to `set_timing`: Python `None`, a list of integers, or
any other (non-list, non-None) object. -/
inductive TimingArg where
  | pynone : TimingArg
  | pylist : List Int → TimingArg
  | pyother : TimingArg
  deriving Repr, DecidableEq

/-- Embedding of `UserAgent.set_timing` (useragent.py lines 746-781). The
result is the pair of the stored `self.__timing` value (returned by
`timing()`) and the retry policy mounted on the session's adapters (`none`
means plain `HTTPAdapter()`, i.e. retries disabled); a non-list non-None
argument raises `McUserAgentException`. -/
def set_timing : TimingArg → Except String (Option (List Int) × Option RetryPolicy)
  | .pyother => .error "Timing must be a list of integer seconds."
  | .pynone => .ok (none, none)
  | .pylist [] => .ok (none, none)
  | .pylist (t0 :: rest) =>
    let backoff_factor : Int :=
      match rest with
      | [] => t0
      | t1 :: _ => t1 - t0
    .ok (some (t0 :: rest),
         some { total := (t0 :: rest).length,
                backoff_factor := backoff_factor,
                status_forcelist := DETERMINED_HTTP_CODES })

/-! ## Insertion-ordered dicts of lists

Python dicts preserve insertion order; `parallel_get` uses them both for
the per-domain URL buckets and for the worker blocks. They are embedded as
association lists where a new key is appended at the end and appending a
value to an existing key keeps its position. -/

/-- Embedding of `d.setdefault(k, []).append(v)` on an insertion-ordered
dict of lists (the `domain_urls` / `url_blocks` update pattern). -/
def assocAppend {κ α : Type} [DecidableEq κ] :
    List (κ × List α) → κ → α → List (κ × List α)
  | [], k, v => [(k, [v])]
  | (k', vs) :: rest, k, v =>
    if k' = k then (k', vs ++ [v]) :: rest
    else (k', vs) :: assocAppend rest k v

/-- Lookup of a key's list in the dict; `[]` when the key is absent. -/
def assocGet {κ α : Type} [DecidableEq κ] : List (κ × List α) → κ → List α
  | [], _ => []
  | (k', vs) :: rest, k => if k' = k then vs else assocGet rest k

/-- Concatenation of all the dict's lists, in dict iteration order. -/
def assocValues {κ α : Type} (bs : List (κ × List α)) : List α :=
  (bs.map Prod.snd).flatten

/-! ## The full `parallel_get` scheduling pipeline -/

/-- Embedding of the `domain_urls` bucketing loop of `__get_scheduled_urls`
(useragent.py lines 421-427): URLs are grouped by their effective domain,
preserving per-domain arrival order. The domain computation
(`__get_url_domain`) calls URL helpers from `mediawords.util.url` that are
outside the excerpt, so it is abstracted as a parameter `domainOf`. -/
def groupByDomain (domainOf : String → String) (urls : List String) :
    List (String × List String) :=
  urls.foldl (fun bs u => assocAppend bs (domainOf u) u) []

/-- Stable ascending insertion by the scheduled time, embedding Python's
stable `sorted(scheduled_urls, key=lambda x: x.time)` (useragent.py line
440): an element is placed after every element with a smaller-or-equal key,
so equal keys keep their original relative order. -/
def insertByTime (x : String × Int) : List (String × Int) → List (String × Int)
  | [] => [x]
  | y :: ys => if y.2 ≤ x.2 then y :: insertByTime x ys else x :: y :: ys

/-- Stable sort by scheduled time (left fold of `insertByTime`). -/
def sortByTime (l : List (String × Int)) : List (String × Int) :=
  l.foldl (fun acc x => insertByTime x acc) []

/-- Embedding of `__get_scheduled_urls` (useragent.py lines 418-442): bucket
by effective domain, assign per-bucket offsets starting from 0, flatten in
dict iteration order, and sort ascending by offset. -/
def getScheduledUrls (domainOf : String → String) (perDomainTimeout : Int)
    (urls : List String) : List (String × Int) :=
  sortByTime
    (((groupByDomain domainOf urls).map
      (fun b => scheduleBucketFromZero perDomainTimeout b.2)).flatten)

/-- Embedding of the `while len(url_stack) > 0` partitioning loop of
`parallel_get` (useragent.py lines 472-479). Popping from the end of the
stack is traversal of the reversed stack; when the head `x` of the reversed
remainder `x :: rest` is popped, the stack still holds `rest.length + 1`
elements, so `block_i = len(url_stack) % num_parallel` is
`(rest.length + 1) % numParallel`. -/
def popBlocksLoop (numParallel : Nat) :
    List (String × Int) → List (Nat × List (String × Int)) →
      List (Nat × List (String × Int))
  | [], blocks => blocks
  | x :: rest, blocks =>
    popBlocksLoop numParallel rest
      (assocAppend blocks ((rest.length + 1) % numParallel) x)

/-- Worker blocks built from the offset-sorted scheduled URL stack. -/
def urlBlocks (numParallel : Nat) (urlStack : List (String × Int)) :
    List (Nat × List (String × Int)) :=
  popBlocksLoop numParallel urlStack.reverse []

/-- Rendering of C5's words, for comparison with `urlBlocks`: the element at
index `j` of the stack is popped when the remaining count (the list length
before the pop) is `j + 1` and goes to worker block `(j + 1) % numParallel`;
pops proceed from the end, so within a block elements appear in decreasing
index order. `claimPopAssignment P l j b` lists, in pop order, the elements
of `l` (whose first element has index `j`) that the claim assigns to block
`b`. -/
def claimPopAssignment (numParallel : Nat) :
    List (String × Int) → Nat → Nat → List (String × Int)
  | [], _, _ => []
  | x :: rest, j, b =>
    claimPopAssignment numParallel rest (j + 1) b ++
      (if (j + 1) % numParallel = b then [x] else [])

/-- Embedding of `_parallel_get_web_store` composed over all worker blocks
(useragent.py lines 77-99 and 481-498): each worker maps its ordered
sub-list of scheduled URLs to one response per URL (the per-URL fetch —
a fresh `UserAgent` running `get_follow_http_html_redirects` — is abstracted
as `fetch`), and `parallel_get` concatenates the workers' result lists in
block order without re-sorting. -/
def parallelGetResponses {ρ : Type} (domainOf : String → String)
    (fetch : String → ρ) (numParallel : Nat) (perDomainTimeout : Int)
    (urls : List String) : List ρ :=
  ((urlBlocks numParallel (getScheduledUrls domainOf perDomainTimeout urls)).map
    (fun b => b.2.map (fun su => fetch su.1))).flatten

/-! ## The single-request executor (`request`), dispatch and body read

The transport (`requests` session) is external; its possible outcomes at
`self.__session.send` (useragent.py lines 632-684) are embedded as a sum
type, and the code following the `try` block is embedded as a pure function
of the outcome. -/

/-- One recorded hop of the transport's redirect history
(`requests_response.history` entries with their requests). -/
structure TransportHop where
  status : Nat
  reason : String
  headers : List (String × String)
  requestUrl : String
  deriving Repr, DecidableEq

/-- What the transport returned for the final (or only) hop: status line,
headers, the body chunk stream of `iter_content`, the redirect hop history
(oldest first, as `requests` records it) and the final request's URL. -/
structure TransportResponse where
  status : Nat
  reason : String
  headers : List (String × String)
  chunks : List String
  history : List TransportHop
  requestUrl : String
  deriving Repr, DecidableEq

/-- Outcome classes of the `self.__session.send` call (useragent.py lines
632-684): a server response, `requests.TooManyRedirects` (whose carried
response may be None), `requests.Timeout`, and any other exception. -/
inductive DispatchOutcome where
  | success (resp : TransportResponse)
  | tooManyRedirects (resp : Option TransportResponse) (exMsg : String)
  | timeout (exMsg : String)
  | otherFault (exMsg : String)
  deriving Repr, DecidableEq

/-- Embedding of the body accumulation loop of `request()` (useragent.py
lines 688-702): chunks are appended to `response_data` and counted into
`response_data_size`; when a maximum size is configured and the running size
exceeds it after a chunk, reading stops (the response is closed), keeping
the data accumulated so far, the exceeding chunk included. -/
def accumulateBodyLoop (maxSize : Option Nat) : List String → String → Nat → String
  | [], data, _ => data
  | chunk :: rest, data, size =>
    match maxSize with
    | none => accumulateBodyLoop none rest (data ++ chunk) (size + chunk.length)
    | some m =>
      if size + chunk.length > m then data ++ chunk
      else accumulateBodyLoop (some m) rest (data ++ chunk) (size + chunk.length)

/-- The accumulation loop started from empty data and size 0. -/
def accumulateBody (chunks : List String) (maxSize : Option Nat) : String :=
  accumulateBodyLoop maxSize chunks "" 0

/-- The `Response` value produced by `request()`: status, reason, headers,
decoded body content, the client-side-error flag, the backward `previous`
chain (immediate predecessor first) and the originating request's URL. -/
structure MResponse where
  status : Nat
  reason : String
  headers : List (String × String)
  data : String
  errorIsClientSide : Bool
  previous : List TransportHop
  requestUrl : String
  deriving Repr, DecidableEq

/-- Modelled from the spec: `Response.from_requests_response`
(mediawords/util/web/ua/response.py, not part of the excerpt) captures
status, reason and headers verbatim and stores the decoded data; combined
here with the chain-reconstruction loop of `request()` (useragent.py lines
719-738), which walks `reversed(requests_response.history)` and links each
prior hop as `previous`, so the backward chain is the reversed history, and
with `set_error_is_client_side` (line 717). -/
def responseFromTransport (r : TransportResponse) (data : String)
    (clientSide : Bool) : MResponse :=
  { status := r.status, reason := r.reason, headers := r.headers, data := data,
    errorIsClientSide := clientSide, previous := r.history.reverse,
    requestUrl := r.requestUrl }

/-- Embedding of `request()` from the `self.__session.send` call onward
(useragent.py lines 630-740), as a function of the prepared request's URL,
the transport outcome, and the configured `max_size`:
on success the body is accumulated (size-capped) and the response carries
the transport's status/headers and rebuilt `previous` chain;
on `TooManyRedirects` the partial response carried by the exception is
returned with `str(ex)` as data (or `McRequestException` raised if it is
None); on `Timeout` a synthetic 408 "Request Timeout" client-side-error
response with no history; on any other exception a synthetic 400
"Client-side error" client-side-error response with a `Client-Warning`
header and no history. -/
def requestDispatch (url : String) (outcome : DispatchOutcome)
    (maxSize : Option Nat) : Except String MResponse :=
  match outcome with
  | .success r =>
    .ok (responseFromTransport r (accumulateBody r.chunks maxSize) false)
  | .tooManyRedirects none _ => .error "Response from 'requests' is None."
  | .tooManyRedirects (some r) exMsg =>
    .ok (responseFromTransport r exMsg false)
  | .timeout exMsg =>
    .ok { status := 408, reason := "Request Timeout", headers := [],
          data := exMsg, errorIsClientSide := true, previous := [],
          requestUrl := url }
  | .otherFault exMsg =>
    .ok { status := 400, reason := "Client-side error",
          headers := [("Client-Warning", "Client-side error")],
          data := exMsg, errorIsClientSide := true, previous := [],
          requestUrl := url }

/-- Cumulative character count of the first `k` body chunks. -/
def cumLen (chunks : List String) (k : Nat) : Nat :=
  ((chunks.take k).map String.length).sum

/-! ## Validation prelude of `get_follow_http_html_redirects` -/

/-- Error raised by the validation prelude of
`get_follow_http_html_redirects` before the first network fetch (all three
are `McGetFollowHTTPHTMLRedirectsException`s, distinguished by message). -/
inductive FollowErr where
  | urlIsNone
  | urlNotHttp
  | maxRedirectZero
  deriving Repr, DecidableEq

/-- Embedding of `get_follow_http_html_redirects` from entry to the first
network call (useragent.py lines 361-376): a None URL raises; the URL is
normalized by `fix_common_url_mistakes` and rejected unless `is_http_url`
(both live in `mediawords.util.url`, outside the excerpt, so they are
abstracted as parameters); then a configured `max_redirect` equal to 0
raises the configuration error. Only an `.ok` result proceeds to
`self.get(url)`, the first network call. `max_redirect` is
`session.max_redirects`, which may be None; Python's `None == 0` is false,
so the zero check fires only on `some 0`. -/
def getFollowPrelude (isHttpUrl : String → Bool)
    (fixCommonUrlMistakes : String → String) (maxRedirect : Option Nat)
    (url : Option String) : Except FollowErr String :=
  match url with
  | none => .error .urlIsNone
  | some u0 =>
    let u := fixCommonUrlMistakes u0
    if ¬ isHttpUrl u then .error .urlNotHttp
    else if maxRedirect = some 0 then .error .maxRedirectZero
    else .ok u

/-! ## Blacklist URL substitution (`__blacklist_request_if_needed`)

The `Request` class lives in `mediawords/util/web/ua/request.py`, outside
the excerpt. Object identity matters for this claim, so requests are
modelled as entries of a store (list) referenced by index. -/

/-- The executor-relevant fields of a `Request` object. -/
structure MRequest where
  method : String
  url : Option String
  deriving Repr, DecidableEq

/-- A heap of `Request` objects; an object is an index into the store. -/
abbrev RequestStore := List MRequest

/-- Modelled from the spec: `Request.set_url`
(mediawords/util/web/ua/request.py, not part of the excerpt) assigns the
request object's URL field in place. The in-place (mutating) reading is
forced by its caller: `__blacklist_request_if_needed` (useragent.py line
531) invokes `request.set_url(...)` as a statement, discarding any return
value, and returns the same `request` object, while the spec (4.1 step 2)
requires the substitution to take effect on the request that round-trips
through the network stack — which it could not if `set_url` left the object
untouched. -/
def set_url (store : RequestStore) (i : Nat) (u : String) : RequestStore :=
  match store[i]? with
  | some r => store.set i { r with url := some u }
  | none => store

/-- Embedding of `UserAgent.__blacklist_request_if_needed` (useragent.py
lines 509-533): after None/empty checks, if a non-empty blacklist pattern
is configured and it matches the URL (`re.search` with
`IGNORECASE | UNICODE`; the regex engine is abstracted as the parameter
`patternMatches`), the request's URL is replaced in place by
`http://blacklistedsite.localhost/<original-url>`; the function returns the
same request (by its store index). -/
def blacklistRequestIfNeeded (patternMatches : String → String → Bool)
    (blacklistUrlPattern : Option String) (store : RequestStore)
    (request : Option Nat) : Except String (RequestStore × Nat) :=
  match request with
  | none => .error "Request is None."
  | some i =>
    match store[i]? with
    | none => .error "Request is None."
    | some r =>
      match r.url with
      | none => .error "URL is None."
      | some u =>
        if u.length = 0 then .error "URL is empty."
        else
          match blacklistUrlPattern with
          | none => .ok (store, i)
          | some p =>
            if 0 < p.length then
              if patternMatches p u then
                .ok (set_url store i ("http://blacklistedsite.localhost/" ++ u), i)
              else .ok (store, i)
            else .ok (store, i)

/-! ## Redirects-exhausted paywall heuristic

(`get_follow_http_html_redirects.__inner_redirects_exhausted`) -/

/-- Backward chain of responses linked through `previous()`: each node
carries the hop's request URL and the optional preceding response; the most
recent response is the root. -/
inductive RChain where
  | mk (requestUrl : String) (prev : Option RChain)

/-- Request URL of a chain node (`response.request().url()`). -/
def RChain.requestUrl : RChain → String
  | .mk u _ => u

/-- Predecessor of a chain node (`response.previous()`). -/
def RChain.previous : RChain → Option RChain
  | .mk _ p => p

/-- Hex digit (uppercase) for percent-encoding. -/
def hexDigitChar (n : Nat) : Char :=
  if n < 10 then Char.ofNat (48 + n) else Char.ofNat (65 + n - 10)

/-- Percent-encoding of one character under `urllib.parse.quote` with its
default `safe='/'`: ASCII alphanumerics and `_.-~/` are kept, everything
else becomes `%XX`. Modelled for ASCII inputs (Python would encode
non-ASCII characters byte-wise as UTF-8; the URLs considered here are
ASCII). -/
def quoteChar (c : Char) : String :=
  if c.isAlphanum ∨ c = '_' ∨ c = '.' ∨ c = '-' ∨ c = '~' ∨ c = '/' then
    String.singleton c
  else
    String.mk ['%', hexDigitChar (c.toNat / 16), hexDigitChar (c.toNat % 16)]

/-- Embedding of `urllib.parse.quote(url)` (ASCII inputs). -/
def quote (s : String) : String :=
  String.join (s.toList.map quoteChar)

/-- Bool test: does `hay` start with `needle`? -/
def listStartsWith : List Char → List Char → Bool
  | [], _ => true
  | _ :: _, [] => false
  | a :: as, b :: bs => if a = b then listStartsWith as bs else false

/-- Bool test: does `needle` occur contiguously inside `hay`? -/
def listHasSub (needle : List Char) : List Char → Bool
  | [] => needle.isEmpty
  | b :: rest => listStartsWith needle (b :: rest) || listHasSub needle rest

/-- Embedding of `re.search(re.escape(needle), hay, IGNORECASE | UNICODE)`:
an escaped pattern matches literally, so the search is a case-insensitive
substring test. -/
def ciSearch (needle hay : String) : Bool :=
  listHasSub (needle.toList.map Char.toLower) (hay.toList.map Char.toLower)

/-- Embedding of the loop of `__inner_redirects_exhausted` (useragent.py
lines 316-343), exactly as written: the loop body runs `max_redirect + 1`
times, but every iteration reads `previous = response_.previous()` from the
same `response_` — the loop variable `x` is unused and `response_` is never
advanced — then URL-encodes that predecessor's request URL, returns the
predecessor if the encoded URL occurs (case-insensitively) in any URL
accumulated in `urls_redirected_to` so far, and otherwise appends the
(unencoded) URL to the accumulator. Falling out of the loop returns None,
upon which the caller (lines 382-384) falls back to the original first
response. -/
def innerRedirectsExhaustedLoop (response_ : RChain) :
    Nat → List String → Option RChain
  | 0, _ => none
  | n + 1, urlsRedirectedTo =>
    match response_.previous with
    | none => none
    | some previous =>
      let urlRedirectedTo := previous.requestUrl
      let encodedUrlRedirectedTo := quote urlRedirectedTo
      if urlsRedirectedTo.any (fun redirUrl => ciSearch encodedUrlRedirectedTo redirUrl) then
        some previous
      else
        innerRedirectsExhaustedLoop response_ n (urlsRedirectedTo ++ [urlRedirectedTo])

/-- The loop of `__inner_redirects_exhausted` started with an empty
accumulator and `range(self.max_redirect() + 1)` iterations. -/
def innerRedirectsExhausted (maxRedirect : Nat) (response_ : RChain) : Option RChain :=
  innerRedirectsExhaustedLoop response_ (maxRedirect + 1) []

/-- Rendering of C2's words, for comparison with `innerRedirectsExhausted`:
walk the `previous` chain from the last response backward (up to
`max_redirect + 1` steps); for each prior hop, URL-encode its request URL
and return the first prior hop whose encoded URL occurs (case-insensitively)
as a substring of a later hop's URL already scanned; otherwise add the hop's
URL to the scanned set and step to that hop. -/
def claimRedirectsWalk : RChain → Nat → List String → Option RChain
  | _, 0, _ => none
  | r, n + 1, scanned =>
    match r.previous with
    | none => none
    | some previous =>
      let u := previous.requestUrl
      if scanned.any (fun redirUrl => ciSearch (quote u) redirUrl) then
        some previous
      else
        claimRedirectsWalk previous n (scanned ++ [u])

/-- The claim's walk started with an empty scanned set. -/
def claimRedirectsExhausted (maxRedirect : Nat) (r : RChain) : Option RChain :=
  claimRedirectsWalk r (maxRedirect + 1) []

/-! ## Lemmas about the per-domain schedule -/

lemma scheduleBucket_map_fst (t : Int) (l : List String) :
    ∀ s : Int, (scheduleBucket t l s).map Prod.fst = l := by
  induction l with
  | nil => intro s; rfl
  | cons u rest ih =>
    intro s
    simp only [scheduleBucket, List.map_cons, ih]

lemma scheduleBucket_map_snd_stuck (t : Int) (l : List String) :
    ∀ s : Int, s % 5 ≠ 0 →
      (scheduleBucket t l s).map Prod.snd = List.replicate l.length s := by
  induction l with
  | nil => intro s _; rfl
  | cons u rest ih =>
    intro s hs
    simp only [scheduleBucket, List.map_cons, if_neg hs, List.length_cons,
      List.replicate_succ, ih s hs]

lemma scheduleBucket_map_snd_dvd (t : Int) (ht : (5 : Int) ∣ t) (l : List String) :
    ∀ k : Nat, (scheduleBucket t l ((k : Int) * t)).map Prod.snd
      = (List.range l.length).map (fun i => ((k + i : Nat) : Int) * t) := by
  induction l with
  | nil => intro k; rfl
  | cons u rest ih =>
    intro k
    have hmod : ((k : Int) * t) % 5 = 0 := by
      rw [← Int.dvd_iff_emod_eq_zero]
      exact Dvd.dvd.mul_left ht (k : Int)
    have hstep : (k : Int) * t + t = ((k + 1 : Nat) : Int) * t := by
      push_cast
      ring
    simp only [scheduleBucket, List.map_cons, if_pos hmod, hstep, ih (k + 1),
      List.length_cons, List.range_succ_eq_map, List.map_cons, List.map_map]
    refine List.cons_eq_cons.mpr ⟨by push_cast; ring, ?_⟩
    apply List.map_congr_left
    intro i _
    simp only [Function.comp_apply]
    push_cast
    ring

/-! ## Lemmas about insertion-ordered dicts -/

lemma assocValues_cons {κ α : Type} (k : κ) (vs : List α) (rest : List (κ × List α)) :
    assocValues ((k, vs) :: rest) = vs ++ assocValues rest := rfl

lemma assocGet_assocAppend {κ α : Type} [DecidableEq κ]
    (bs : List (κ × List α)) (k : κ) (v : α) (b : κ) :
    assocGet (assocAppend bs k v) b
      = if k = b then assocGet bs b ++ [v] else assocGet bs b := by
  induction bs with
  | nil => by_cases hkb : k = b <;> simp [assocAppend, assocGet, hkb]
  | cons p rest ih =>
    obtain ⟨k', vs⟩ := p
    by_cases hk : k' = k
    · subst hk
      by_cases hkb : k' = b <;> simp [assocAppend, assocGet, hkb]
    · by_cases hk'b : k' = b
      · subst hk'b
        have hkb : ¬ k = k' := fun h => hk h.symm
        simp [assocAppend, assocGet, hk, hkb]
      · simp [assocAppend, assocGet, hk, hk'b, ih]

lemma assocValues_assocAppend_perm {κ α : Type} [DecidableEq κ]
    (bs : List (κ × List α)) (k : κ) (v : α) :
    (assocValues (assocAppend bs k v)).Perm (assocValues bs ++ [v]) := by
  induction bs with
  | nil => simp [assocAppend, assocValues]
  | cons p rest ih =>
    obtain ⟨k', vs⟩ := p
    by_cases hk : k' = k
    · simp only [assocAppend, if_pos hk, assocValues_cons]
      calc (vs ++ [v]) ++ assocValues rest
          = vs ++ ([v] ++ assocValues rest) := by rw [List.append_assoc]
        _ ~ vs ++ (assocValues rest ++ [v]) :=
            List.Perm.append_left vs List.perm_append_comm
        _ = (vs ++ assocValues rest) ++ [v] := by rw [List.append_assoc]
    · simp only [assocAppend, if_neg hk, assocValues_cons]
      calc vs ++ assocValues (assocAppend rest k v)
          ~ vs ++ (assocValues rest ++ [v]) := List.Perm.append_left vs ih
        _ = (vs ++ assocValues rest) ++ [v] := by rw [List.append_assoc]

lemma assocValues_groupByDomain_perm (domainOf : String → String)
    (urls : List String) :
    (assocValues (groupByDomain domainOf urls)).Perm urls := by
  suffices h : ∀ (l : List String) (bs : List (String × List String)),
      (assocValues (l.foldl (fun a u => assocAppend a (domainOf u) u) bs)).Perm
        (assocValues bs ++ l) by
    simpa [groupByDomain, assocValues] using h urls []
  intro l
  induction l with
  | nil => intro bs; simp
  | cons u rest ih =>
    intro bs
    calc assocValues ((u :: rest).foldl (fun a u => assocAppend a (domainOf u) u) bs)
        = assocValues (rest.foldl (fun a u => assocAppend a (domainOf u) u)
            (assocAppend bs (domainOf u) u)) := rfl
      _ ~ assocValues (assocAppend bs (domainOf u) u) ++ rest := ih _
      _ ~ (assocValues bs ++ [u]) ++ rest :=
          (assocValues_assocAppend_perm bs (domainOf u) u).append_right rest
      _ = assocValues bs ++ (u :: rest) := by simp

/-! ## Lemmas about the worker-block partition -/

lemma assocValues_popBlocksLoop (P : Nat) :
    ∀ (r : List (String × Int)) (bs : List (Nat × List (String × Int))),
      (assocValues (popBlocksLoop P r bs)).Perm (assocValues bs ++ r) := by
  intro r
  induction r with
  | nil => intro bs; simp [popBlocksLoop]
  | cons x rest ih =>
    intro bs
    calc assocValues (popBlocksLoop P (x :: rest) bs)
        = assocValues (popBlocksLoop P rest
            (assocAppend bs ((rest.length + 1) % P) x)) := rfl
      _ ~ assocValues (assocAppend bs ((rest.length + 1) % P) x) ++ rest := ih _
      _ ~ (assocValues bs ++ [x]) ++ rest :=
          (assocValues_assocAppend_perm bs ((rest.length + 1) % P) x).append_right rest
      _ = assocValues bs ++ (x :: rest) := by simp

lemma claimPopAssignment_append_singleton (P : Nat) (a : String × Int) :
    ∀ (l : List (String × Int)) (j b : Nat),
      claimPopAssignment P (l ++ [a]) j b
        = (if (j + l.length + 1) % P = b then [a] else [])
            ++ claimPopAssignment P l j b := by
  intro l
  induction l with
  | nil => intro j b; simp [claimPopAssignment]
  | cons x rest ih =>
    intro j b
    have hidx : j + 1 + rest.length + 1 = j + (rest.length + 1) + 1 := by omega
    simp only [List.cons_append, claimPopAssignment, List.append_eq,
      ih (j + 1) b, List.length_cons]
    rw [hidx, List.append_assoc]

lemma assocGet_popBlocksLoop (P : Nat) (l : List (String × Int)) :
    ∀ (bs : List (Nat × List (String × Int))) (b : Nat),
      assocGet (popBlocksLoop P l.reverse bs) b
        = assocGet bs b ++ claimPopAssignment P l 0 b := by
  induction l using List.reverseRecOn with
  | nil => intro bs b; simp [popBlocksLoop, claimPopAssignment]
  | append_singleton l' a ih =>
    intro bs b
    rw [List.reverse_append, List.reverse_singleton, List.singleton_append]
    simp only [popBlocksLoop]
    rw [List.length_reverse, ih, assocGet_assocAppend,
        claimPopAssignment_append_singleton, Nat.zero_add]
    by_cases hkb : (l'.length + 1) % P = b
    · simp [hkb]
    · simp [hkb]

/-! ## Lemmas about the stable sort by scheduled time -/

lemma insertByTime_perm (x : String × Int) (l : List (String × Int)) :
    (insertByTime x l).Perm (x :: l) := by
  induction l with
  | nil => simp [insertByTime]
  | cons y ys ih =>
    by_cases h : y.2 ≤ x.2
    · simp only [insertByTime, if_pos h]
      calc y :: insertByTime x ys
          ~ y :: x :: ys := List.Perm.cons y ih
        _ ~ x :: y :: ys := List.Perm.swap x y ys
    · simp [insertByTime, if_neg h]

lemma sortByTime_perm (l : List (String × Int)) : (sortByTime l).Perm l := by
  suffices h : ∀ (l acc : List (String × Int)),
      (l.foldl (fun a x => insertByTime x a) acc).Perm (acc ++ l) by
    simpa [sortByTime] using h l []
  intro l
  induction l with
  | nil => intro acc; simp
  | cons x rest ih =>
    intro acc
    calc (x :: rest).foldl (fun a x => insertByTime x a) acc
        = rest.foldl (fun a x => insertByTime x a) (insertByTime x acc) := rfl
      _ ~ insertByTime x acc ++ rest := ih _
      _ ~ (x :: acc) ++ rest := (insertByTime_perm x acc).append_right rest
      _ ~ acc ++ (x :: rest) := by
          rw [List.cons_append]
          exact List.perm_middle.symm

lemma scheduleBucketFromZero_map_fst (t : Int) (l : List String) :
    (scheduleBucketFromZero t l).map Prod.fst = l :=
  scheduleBucket_map_fst t l 0

lemma getScheduledUrls_map_fst_perm (domainOf : String → String) (t : Int)
    (urls : List String) :
    ((getScheduledUrls domainOf t urls).map Prod.fst).Perm urls := by
  have hsort := sortByTime_perm
    (((groupByDomain domainOf urls).map
      (fun b => scheduleBucketFromZero t b.2)).flatten)
  have hflat : ((((groupByDomain domainOf urls).map
      (fun b => scheduleBucketFromZero t b.2)).flatten).map Prod.fst)
        = assocValues (groupByDomain domainOf urls) := by
    rw [List.map_flatten, List.map_map, assocValues]
    congr 1
    apply List.map_congr_left
    intro b _
    simp [Function.comp, scheduleBucketFromZero_map_fst]
  have hmap := hsort.map Prod.fst
  rw [hflat] at hmap
  exact hmap.trans (assocValues_groupByDomain_perm domainOf urls)

/-! ## Lemmas about the body accumulation loop -/

lemma string_foldl_append (cs : List String) :
    ∀ a : String, cs.foldl (fun r s => r ++ s) a = a ++ String.join cs := by
  induction cs with
  | nil => intro a; simp [String.join, String.append_empty]
  | cons c cs ih =>
    intro a
    show cs.foldl (fun r s => r ++ s) (a ++ c) = a ++ String.join (c :: cs)
    rw [ih (a ++ c)]
    have hjoin : String.join (c :: cs) = c ++ String.join cs := by
      show cs.foldl (fun r s => r ++ s) ("" ++ c) = c ++ String.join cs
      rw [String.empty_append, ih c]
    rw [hjoin, ← String.append_assoc]

lemma string_join_cons (c : String) (cs : List String) :
    String.join (c :: cs) = c ++ String.join cs := by
  show cs.foldl (fun r s => r ++ s) ("" ++ c) = c ++ String.join cs
  rw [String.empty_append, string_foldl_append cs c]

lemma cumLen_zero (chunks : List String) : cumLen chunks 0 = 0 := rfl

lemma cumLen_succ_cons (c : String) (rest : List String) (k : Nat) :
    cumLen (c :: rest) (k + 1) = c.length + cumLen rest k := by
  simp [cumLen, List.take_succ_cons]

lemma accumulateBodyLoop_none (chunks : List String) :
    ∀ (data : String) (size : Nat),
      accumulateBodyLoop none chunks data size = data ++ String.join chunks := by
  induction chunks with
  | nil => intro data size; simp [accumulateBodyLoop, String.join, String.append_empty]
  | cons c rest ih =>
    intro data size
    simp only [accumulateBodyLoop, ih, string_join_cons, String.append_assoc]

lemma accumulateBodyLoop_no_exceed (m : Nat) (chunks : List String) :
    ∀ (data : String) (size : Nat), size + cumLen chunks chunks.length ≤ m →
      accumulateBodyLoop (some m) chunks data size = data ++ String.join chunks := by
  induction chunks with
  | nil => intro data size _; simp [accumulateBodyLoop, String.join, String.append_empty]
  | cons c rest ih =>
    intro data size h
    rw [List.length_cons, cumLen_succ_cons] at h
    have hle : ¬ size + c.length > m := by omega
    have hrec : size + c.length + cumLen rest rest.length ≤ m := by omega
    simp only [accumulateBodyLoop, if_neg hle, ih _ _ hrec, string_join_cons,
      String.append_assoc]

lemma accumulateBodyLoop_exceed (m : Nat) (chunks : List String) :
    ∀ (k : Nat) (data : String) (size : Nat), k < chunks.length →
      size + cumLen chunks k ≤ m → m < size + cumLen chunks (k + 1) →
      accumulateBodyLoop (some m) chunks data size
        = data ++ String.join (chunks.take (k + 1)) := by
  induction chunks with
  | nil => intro k data size hk; exact absurd hk (by simp)
  | cons c rest ih =>
    intro k data size hk hle hgt
    cases k with
    | zero =>
      rw [cumLen_succ_cons, cumLen_zero] at hgt
      have hstop : size + c.length > m := by omega
      simp only [accumulateBodyLoop, if_pos hstop, List.take_succ_cons,
        List.take_zero, string_join_cons, String.join, List.foldl_cons,
        List.foldl_nil, String.empty_append, String.append_empty]
    | succ k' =>
      rw [cumLen_succ_cons] at hle
      rw [cumLen_succ_cons] at hgt
      have hcont : ¬ size + c.length > m := by
        have hnonneg : 0 ≤ cumLen rest k' := Nat.zero_le _
        omega
      have hk' : k' < rest.length := by
        rw [List.length_cons] at hk
        omega
      have h1 : size + c.length + cumLen rest k' ≤ m := by omega
      have h2 : m < size + c.length + cumLen rest (k' + 1) := by omega
      simp only [accumulateBodyLoop, if_neg hcont, ih k' _ _ hk' h1 h2,
        List.take_succ_cons, string_join_cons, String.append_assoc]

/-- C1: the claim's index-based rule disagrees with the code on a concrete
bucket: with per-domain timeout 5 and three URLs in one bucket, the code
(`time_ % 5 == 0`) yields offsets `[0, 5, 10]`, while the claim (offset
advances after indices divisible by 5, i.e. only after index 0 here) yields
`[0, 5, 5]`. -/
theorem scheduleBucket_index_claim_counterexample :
    scheduleBucketFromZero 5 ["a", "b", "c"] ≠ claimBucketFromZero 5 ["a", "b", "c"] ∧
    (scheduleBucketFromZero 5 ["a", "b", "c"]).map Prod.snd = [0, 5, 10] ∧
    (claimBucketFromZero 5 ["a", "b", "c"]).map Prod.snd = [0, 5, 5] := by
  refine ⟨?_, rfl, rfl⟩
  decide

/-- C1 (amended): within each domain bucket the first URL receives offset 0,
and after each URL the running offset advances by the per-domain timeout
exactly when the current offset value is divisible by 5 (the code tests
`time_ % 5 == 0`, not the URL's index). Concretely: when 5 divides the
per-domain timeout, the i-th URL of the bucket is scheduled at `i * timeout`;
otherwise the first URL is scheduled at 0 and every later URL at `timeout`.
URLs are kept in bucket order. -/
theorem scheduleBucket_offsets (t : Int) (urls : List String) :
    (scheduleBucketFromZero t urls).map Prod.fst = urls ∧
    ((5 : Int) ∣ t →
      (scheduleBucketFromZero t urls).map Prod.snd
        = (List.range urls.length).map (fun i : Nat => (i : Int) * t)) ∧
    (¬ (5 : Int) ∣ t →
      (scheduleBucketFromZero t urls).map Prod.snd
        = (List.range urls.length).map (fun i : Nat => if i = 0 then (0 : Int) else t)) := by
  refine ⟨scheduleBucket_map_fst t urls 0, ?_, ?_⟩
  · intro ht
    have h := scheduleBucket_map_snd_dvd t ht urls 0
    simp only [Nat.cast_zero, zero_mul, Nat.zero_add] at h
    exact h
  · intro ht
    have ht5 : t % 5 ≠ 0 := fun hc => ht (Int.dvd_iff_emod_eq_zero.mpr hc)
    cases urls with
    | nil => rfl
    | cons u rest =>
      have h0 : (0 : Int) % 5 = 0 := by decide
      have hrest := scheduleBucket_map_snd_stuck t rest t ht5
      simp only [scheduleBucketFromZero, scheduleBucket, List.map_cons, if_pos h0,
        zero_add, hrest, List.length_cons, List.range_succ_eq_map, List.map_cons,
        List.map_map]
      refine List.cons_eq_cons.mpr ⟨by simp, ?_⟩
      have hmap : ∀ i ∈ List.range rest.length,
          ((fun i => if i = 0 then (0 : Int) else t) ∘ Nat.succ) i = t := by
        intro i _
        simp [Function.comp]
      rw [List.map_congr_left hmap]
      simp [List.eq_replicate_iff]

/-- C1 witness: the amended theorem applied at per-domain timeouts 5 and 7. -/
theorem scheduleBucket_offsets_witness :
    ((5 : Int) ∣ 5 ∧
      (scheduleBucketFromZero 5 ["a", "b", "c"]).map Prod.snd
        = (List.range 3).map (fun i : Nat => (i : Int) * 5)) ∧
    (¬ (5 : Int) ∣ 7 ∧
      (scheduleBucketFromZero 7 ["a", "b"]).map Prod.snd
        = (List.range 2).map (fun i : Nat => if i = 0 then (0 : Int) else 7)) :=
  ⟨⟨dvd_refl 5, (scheduleBucket_offsets 5 ["a", "b", "c"]).2.1 (dvd_refl 5)⟩,
   ⟨by decide, (scheduleBucket_offsets 7 ["a", "b"]).2.2 (by decide)⟩⟩

/-- C3: a non-empty retry timing list installs a transport retry policy that
retries exactly on status codes 408, 500, 502, 503, 504 and 429, with total
attempts equal to the length of the timing list and backoff factor the single
element for a one-element list, or the second element minus the first for a
longer list; a timing of None disables retries. -/
theorem set_timing_retry_policy (t0 t1 : Int) (rest : List Int) :
    set_timing (.pylist [t0])
      = .ok (some [t0],
             some { total := [t0].length, backoff_factor := t0,
                    status_forcelist := DETERMINED_HTTP_CODES }) ∧
    set_timing (.pylist (t0 :: t1 :: rest))
      = .ok (some (t0 :: t1 :: rest),
             some { total := (t0 :: t1 :: rest).length, backoff_factor := t1 - t0,
                    status_forcelist := DETERMINED_HTTP_CODES }) ∧
    set_timing .pynone = .ok (none, none) ∧
    (∀ c, c ∈ DETERMINED_HTTP_CODES ↔
      (c = 408 ∨ c = 500 ∨ c = 502 ∨ c = 503 ∨ c = 504 ∨ c = 429)) := by
  refine ⟨rfl, rfl, rfl, ?_⟩
  intro c
  simp [DETERMINED_HTTP_CODES]

/-- C10: calling `set_timing` with an empty list does not raise: it is
normalized to None, so the stored timing is None and no retry policy is
mounted, exactly as for `set_timing(None)`; every list argument and None
succeed, and only a non-list, non-None argument raises. -/
theorem set_timing_empty_normalizes_to_none :
    set_timing (.pylist []) = set_timing .pynone ∧
    set_timing (.pylist []) = .ok (none, none) ∧
    set_timing .pyother = .error "Timing must be a list of integer seconds." ∧
    (∀ l : List Int, ∃ v, set_timing (.pylist l) = .ok v) := by
  refine ⟨rfl, rfl, rfl, ?_⟩
  intro l
  cases l with
  | nil => exact ⟨(none, none), rfl⟩
  | cons t0 rest => exact ⟨_, rfl⟩

/-- C5: `parallel_get` partitions the offset-sorted scheduled URL stack
across workers by repeatedly popping from the end and assigning the popped
URL to worker block `(remaining-count mod num_parallel)`, where the
remaining count is the stack length before the pop; within each block, URLs
appear in the order they were popped: for every block index `b`, the block's
contents equal `claimPopAssignment`, the direct rendering of that rule. -/
theorem urlBlocks_partition_rule (numParallel : Nat) (hP : 0 < numParallel)
    (urlStack : List (String × Int)) (b : Nat) :
    assocGet (urlBlocks numParallel urlStack) b
      = claimPopAssignment numParallel urlStack 0 b := by
  have h := assocGet_popBlocksLoop numParallel urlStack [] b
  simpa [urlBlocks, assocGet] using h

/-- C5 witness: the partition rule applied at a concrete stack with two
workers; block 1 receives the third URL (popped first, remaining count 3)
and then the first URL (remaining count 1). -/
theorem urlBlocks_partition_rule_witness :
    0 < 2 ∧
    assocGet (urlBlocks 2 [("a", 0), ("b", 0), ("c", 1)]) 1
      = claimPopAssignment 2 [("a", 0), ("b", 0), ("c", 1)] 0 1 ∧
    claimPopAssignment 2 [("a", 0), ("b", 0), ("c", 1)] 0 1
      = [("c", 1), ("a", 0)] :=
  ⟨by decide,
   urlBlocks_partition_rule 2 (by decide) [("a", 0), ("b", 0), ("c", 1)] 1,
   by decide⟩

/-- C9: the worker blocks form a partition of the scheduled-URL list (their
concatenation is a permutation of it, so each scheduled URL lands in exactly
one block), and the list returned by `parallel_get` — the concatenation of
all workers' results — contains exactly one response per input URL (it is a
permutation of the input URLs mapped through the per-URL fetch). -/
theorem parallel_get_one_response_per_url {ρ : Type} (domainOf : String → String)
    (fetch : String → ρ) (numParallel : Nat) (perDomainTimeout : Int)
    (urls : List String) (hP : 0 < numParallel) :
    (assocValues (urlBlocks numParallel
        (getScheduledUrls domainOf perDomainTimeout urls))).Perm
      (getScheduledUrls domainOf perDomainTimeout urls) ∧
    (parallelGetResponses domainOf fetch numParallel perDomainTimeout urls).Perm
      (urls.map fetch) := by
  have hblocks : (assocValues (urlBlocks numParallel
      (getScheduledUrls domainOf perDomainTimeout urls))).Perm
        (getScheduledUrls domainOf perDomainTimeout urls) := by
    have h := assocValues_popBlocksLoop numParallel
      (getScheduledUrls domainOf perDomainTimeout urls).reverse []
    simp only [assocValues, List.map_nil, List.flatten_nil, List.nil_append] at h
    exact h.trans (List.reverse_perm _)
  refine ⟨hblocks, ?_⟩
  have hresp : parallelGetResponses domainOf fetch numParallel perDomainTimeout urls
      = (assocValues (urlBlocks numParallel
          (getScheduledUrls domainOf perDomainTimeout urls))).map
            (fun su => fetch su.1) := by
    simp only [parallelGetResponses, assocValues, List.map_flatten, List.map_map]
    rfl
  rw [hresp]
  have h1 := hblocks.map (fun su : String × Int => fetch su.1)
  have h2 := (getScheduledUrls_map_fst_perm domainOf perDomainTimeout urls).map fetch
  rw [List.map_map] at h2
  exact h1.trans h2

/-- C9 witness: the theorem applied at a concrete batch with two workers,
a constant domain function and the identity fetch. -/
theorem parallel_get_one_response_per_url_witness :
    0 < 2 ∧
    (parallelGetResponses (fun _ => "d") (fun u => u) 2 7
        ["u1", "u2", "u3"]).Perm (["u1", "u2", "u3"].map (fun u => u)) :=
  ⟨by decide,
   (parallel_get_one_response_per_url (fun _ => "d") (fun u => u) 2 7
     ["u1", "u2", "u3"] (by decide)).2⟩

/-- C4: when dispatch fails at the transport layer, `request()` returns
(never raises) a synthetic client-side-error response: on timeout status 408
(reason "Request Timeout"), and on any other transport-level fault status
400 with reason "Client-side error" and a `Client-Warning` marker header;
in both cases the `previous` chain is empty. -/
theorem request_transport_fault_synthesizes_response
    (url exMsg : String) (maxSize : Option Nat) :
    requestDispatch url (.timeout exMsg) maxSize
      = .ok { status := 408, reason := "Request Timeout", headers := [],
              data := exMsg, errorIsClientSide := true, previous := [],
              requestUrl := url } ∧
    requestDispatch url (.otherFault exMsg) maxSize
      = .ok { status := 400, reason := "Client-side error",
              headers := [("Client-Warning", "Client-side error")],
              data := exMsg, errorIsClientSide := true, previous := [],
              requestUrl := url } :=
  ⟨rfl, rfl⟩

/-- C6: the body accumulation of `request()` stops exactly at the first
chunk that makes the accumulated size exceed a configured positive
`max_size`, returning a well-formed (non-client-side-error) response whose
data is the concatenation of the chunks read so far (the exceeding chunk
included); when `max_size` is unset, or the whole stream fits, the whole
stream is read. The index `k` of the first exceeding chunk is pinned by
`cumLen chunks k ≤ m < cumLen chunks (k+1)`. -/
theorem request_body_accumulation (url : String) (r : TransportResponse) :
    requestDispatch url (.success r) none
        = .ok (responseFromTransport r (String.join r.chunks) false) ∧
    (∀ m : Nat, 0 < m →
      (∀ k : Nat, k < r.chunks.length → cumLen r.chunks k ≤ m →
          m < cumLen r.chunks (k + 1) →
          requestDispatch url (.success r) (some m)
            = .ok (responseFromTransport r
                (String.join (r.chunks.take (k + 1))) false)) ∧
      (cumLen r.chunks r.chunks.length ≤ m →
        requestDispatch url (.success r) (some m)
          = .ok (responseFromTransport r (String.join r.chunks) false))) := by
  refine ⟨?_, ?_⟩
  · show Except.ok (responseFromTransport r (accumulateBody r.chunks none) false) = _
    rw [accumulateBody, accumulateBodyLoop_none, String.empty_append]
  · intro m hm
    constructor
    · intro k hk hle hgt
      show Except.ok (responseFromTransport r (accumulateBody r.chunks (some m)) false) = _
      rw [accumulateBody,
        accumulateBodyLoop_exceed m r.chunks k "" 0 hk (by omega) (by omega),
        String.empty_append]
    · intro hle
      show Except.ok (responseFromTransport r (accumulateBody r.chunks (some m)) false) = _
      rw [accumulateBody, accumulateBodyLoop_no_exceed m r.chunks "" 0 (by omega),
        String.empty_append]

/-- C6 witness: with chunks "ab", "cd", "ef" and `max_size` 3, the second
chunk is the first to push the accumulated size past 3 (2 ≤ 3 < 4), so the
response carries "ab" ++ "cd" and reading stops there. -/
theorem request_body_accumulation_witness :
    requestDispatch "http://e/"
        (.success { status := 200, reason := "OK", headers := [],
                    chunks := ["ab", "cd", "ef"], history := [],
                    requestUrl := "http://e/" }) (some 3)
      = .ok (responseFromTransport
          { status := 200, reason := "OK", headers := [],
            chunks := ["ab", "cd", "ef"], history := [],
            requestUrl := "http://e/" }
          (String.join (["ab", "cd", "ef"].take 2)) false) :=
  ((request_body_accumulation "http://e/"
      { status := 200, reason := "OK", headers := [],
        chunks := ["ab", "cd", "ef"], history := [],
        requestUrl := "http://e/" }).2 3 (by decide)).1 1
    (by decide) (by decide) (by decide)

/-- C7: with `max_redirect` configured to 0,
`get_follow_http_html_redirects` raises before any network call: for every
URL argument the validation prelude returns an error — it never reaches the
`.ok` result that alone proceeds to the first fetch — and for every URL
that passes the URL validity checks the error is precisely the
`max_redirect` configuration error. -/
theorem getFollow_max_redirect_zero_raises (isHttpUrl : String → Bool)
    (fixCommonUrlMistakes : String → String) (url : Option String) :
    (∀ u, getFollowPrelude isHttpUrl fixCommonUrlMistakes (some 0) url ≠ .ok u) ∧
    (∀ u, url = some u → isHttpUrl (fixCommonUrlMistakes u) = true →
      getFollowPrelude isHttpUrl fixCommonUrlMistakes (some 0) url
        = .error .maxRedirectZero) := by
  cases url with
  | none =>
    exact ⟨fun u h => Except.noConfusion h, fun u h => by simp at h⟩
  | some v =>
    by_cases hvalid : isHttpUrl (fixCommonUrlMistakes v) = true
    · have hres : getFollowPrelude isHttpUrl fixCommonUrlMistakes (some 0) (some v)
          = .error .maxRedirectZero := by
        simp [getFollowPrelude, hvalid]
      refine ⟨fun u h => ?_, fun u h hv => hres⟩
      rw [hres] at h
      exact Except.noConfusion h
    · have hres : getFollowPrelude isHttpUrl fixCommonUrlMistakes (some 0) (some v)
          = .error .urlNotHttp := by
        simp [getFollowPrelude, hvalid]
      refine ⟨fun u h => ?_, fun u h hv => ?_⟩
      · rw [hres] at h
        exact Except.noConfusion h
      · cases h
        exact absurd hv hvalid

/-- C7 witness: the theorem applied to a concrete valid http URL with the
identity normalizer and an always-true URL validity check. -/
theorem getFollow_max_redirect_zero_raises_witness :
    getFollowPrelude (fun _ => true) (fun u => u) (some 0) (some "http://a.com/")
      = .error .maxRedirectZero :=
  (getFollow_max_redirect_zero_raises (fun _ => true) (fun u => u)
    (some "http://a.com/")).2 "http://a.com/" rfl rfl

/-- C2 (code bug): on a three-hop chain where the oldest hop's URL-encoded
URL is embedded in the middle hop's URL — the exact paywall pattern the
heuristic documents — the code as written returns None (so the caller falls
back to the original first response), while the claim's walk returns the
oldest hop. The loop never advances `response_`, so every iteration
re-examines the same immediate predecessor and compares its encoded URL
against copies of itself. -/
theorem redirects_exhausted_divergence :
    (innerRedirectsExhausted 2
        (RChain.mk "http://paywall.example/landing"
          (some (RChain.mk "http://paywall.example/r?next=http%3A//example.com/story"
            (some (RChain.mk "http://example.com/story" none)))))).map RChain.requestUrl
      = none ∧
    (claimRedirectsExhausted 2
        (RChain.mk "http://paywall.example/landing"
          (some (RChain.mk "http://paywall.example/r?next=http%3A//example.com/story"
            (some (RChain.mk "http://example.com/story" none)))))).map RChain.requestUrl
      = some "http://example.com/story" :=
  ⟨by decide, by decide⟩

/-- C8: the blacklist substitution does not produce a derived request: it
mutates the request handed to the executor in place. On a store holding one
request whose URL matches the pattern, the call returns the same request
(index 0) and the store entry at that index now carries the substituted
URL, which differs from the original — so the original request did not
remain unchanged. -/
theorem blacklist_mutates_original_counterexample :
    blacklistRequestIfNeeded (fun _ _ => true) (some "example")
        [{ method := "GET", url := some "http://example.com/" }] (some 0)
      = .ok ([{ method := "GET",
                url := some "http://blacklistedsite.localhost/http://example.com/" }], 0) ∧
    ({ method := "GET",
       url := some "http://blacklistedsite.localhost/http://example.com/" } : MRequest)
      ≠ { method := "GET", url := some "http://example.com/" } :=
  ⟨rfl, by decide⟩

/-- C8 (amended): for a request with a non-empty URL, when a non-empty
blacklist pattern matches the URL, `__blacklist_request_if_needed` replaces
the URL of that same request in place with
`http://blacklistedsite.localhost/<original-url>` and returns the same
request (same store index, no new request created: the store keeps its
length); requests whose URL does not match, or when no pattern is
configured, pass through with store and URL intact. -/
theorem blacklist_request_update (patternMatches : String → String → Bool)
    (p : String) (store : RequestStore) (i : Nat) (r : MRequest) (u : String)
    (hr : store[i]? = some r) (hu : r.url = some u) (hne : ¬ u.length = 0) :
    (0 < p.length → patternMatches p u = true →
      blacklistRequestIfNeeded patternMatches (some p) store (some i)
        = .ok (store.set i
            { r with url := some ("http://blacklistedsite.localhost/" ++ u) }, i)) ∧
    (patternMatches p u = false →
      blacklistRequestIfNeeded patternMatches (some p) store (some i)
        = .ok (store, i)) ∧
    blacklistRequestIfNeeded patternMatches none store (some i) = .ok (store, i) ∧
    (store.set i { r with url := some ("http://blacklistedsite.localhost/" ++ u) }).length
      = store.length := by
  refine ⟨?_, ?_, ?_, List.length_set store i _⟩
  · intro hp hm
    simp [blacklistRequestIfNeeded, hr, hu, hne, hp, hm, set_url]
  · intro hm
    by_cases hp : 0 < p.length <;>
      simp [blacklistRequestIfNeeded, hr, hu, hne, hp, hm]
  · simp [blacklistRequestIfNeeded, hr, hu, hne]

/-- C8 witness for the amended theorem: a concrete store with one matching
request; its URL is substituted in place at index 0. -/
theorem blacklist_request_update_witness :
    blacklistRequestIfNeeded (fun _ _ => true) (some "x")
        [{ method := "GET", url := some "http://a/" }] (some 0)
      = .ok (([{ method := "GET", url := some "http://a/" }] : RequestStore).set 0
          { method := "GET",
            url := some ("http://blacklistedsite.localhost/" ++ "http://a/") }, 0) :=
  (blacklist_request_update (fun _ _ => true) "x"
    [{ method := "GET", url := some "http://a/" }] 0
    { method := "GET", url := some "http://a/" } "http://a/"
    rfl rfl (by decide)).1 (by decide) rfl

end UserAgentSpec
